import Mathlib

/-!
A verification development for the `share_map` crate: an immutable map
(`ShareMap` / `FrozenMap`) storing values in a contiguous reference-counted
store (`Arc<[V]>`) indexed through a key-to-slot index map, together with an
atomically swappable holder (`SwapMap`) and stable value handles
(`ValueRef` / `Handle`).

The embedding has two layers.

* A content layer: `FrozenMap` is a pair of an index map (association list
  with `HashMap`-style insertion semantics: inserting an existing key
  replaces the stored slot, a fresh key is appended) and a value store
  (a list of values in slot order).  `FrozenMap.from_pairs`,
  `ShareMap.try_from_iter`, `ShareMap.from_iter`, `get`, `values`, `len`
  are translated directly from the Rust sources.

* An ownership layer: a `World` holds arenas (value stores with a strong
  reference count, modelling `Arc<[V]>`) and snapshot objects (index map +
  arena id + strong count, modelling `Arc<FrozenMap>`).  `SwapMap`
  operations are state transitions on a world; `ValueRef`s are an arena id
  plus slot index, and dereference through the world (a freed arena, strong
  count zero, dereferences to `none`, modelling that the code never reads
  freed memory).
-/

set_option linter.unusedSectionVars false
set_option linter.unusedVariables false

namespace ShareMapModel

variable {K V α : Type} [DecidableEq K]

/-- Models the `DuplicateKeyError` unit error struct (both the `share_map`
and the `frozen_map` variant). -/
inductive DuplicateKeyError : Type where
  | mk : DuplicateKeyError
deriving DecidableEq, Repr

/-- First entry of an association list whose key equals `k`.  Models point
lookup in the index map (`MapQuery::get`). -/
def assocFind (l : List (K × α)) (k : K) : Option (K × α) :=
  l.find? (fun e => decide (e.1 = k))

/-- Slot lookup in the index map: `self.index_map.get(key)`. -/
def imGet (m : List (K × Nat)) (k : K) : Option Nat :=
  (assocFind m k).map Prod.snd

/-- `self.index_map.contains_key(key)`. -/
def imContains (m : List (K × Nat)) (k : K) : Bool :=
  (imGet m k).isSome

/-- One `HashMap`-style insertion into the index map: an existing key has its
slot replaced in place, a fresh key is appended.  (The real `HashMap` has an
unspecified iteration order; the model fixes first-insertion order, which no
claim depends on.) -/
def imInsert (m : List (K × Nat)) (e : K × Nat) : List (K × Nat) :=
  if (assocFind m e.1).isSome then
    m.map (fun q => if q.1 = e.1 then (q.1, e.2) else q)
  else
    m ++ [e]

/-- `Map::from_iter` for the slot map: sequential insertion of the pairs,
duplicates collapsing onto the earlier key with the later slot. -/
def imFromIter (l : List (K × Nat)) : List (K × Nat) :=
  l.foldl imInsert []

/-- `(key, slot)` pairs produced by `.enumerate()` starting at slot `n`:
the `i`-th pair of the input becomes `(key_i, n + i)`. -/
def reindexFrom : Nat → List (K × α) → List (K × Nat)
  | _, [] => []
  | n, e :: rest => (e.1, n) :: reindexFrom (n + 1) rest

/-- Content of one immutable snapshot: the slot index map plus the value
store in slot order.  `ShareMap` and `FrozenMap` have the same two fields
(`index_map`/`values` resp. `index_map`/`store`). -/
structure FrozenMap (K V : Type) where
  index_map : List (K × Nat)
  store : List V
deriving DecidableEq, Repr

/-- `FrozenMap::from_pairs`: push each value into the store, pair each key
with its slot (position of insertion), build the index map, and fail with
`DuplicateKeyError` when the index map collapsed duplicate keys (its length
is below the store length). -/
def FrozenMap.from_pairs (pairs : List (K × V)) :
    Except DuplicateKeyError (FrozenMap K V) :=
  let store := pairs.map Prod.snd
  let index_map := imFromIter (reindexFrom 0 pairs)
  if index_map.length = store.length then
    .ok ⟨index_map, store⟩
  else
    .error .mk

/-- `FrozenMap::get`: look the key up in the index map and read the store at
the found slot (the Rust indexing `&self.store[*index]` cannot go out of
bounds on a constructed map; the model reads through `getElem?`). -/
def FrozenMap.get (m : FrozenMap K V) (k : K) : Option V :=
  (imGet m.index_map k).bind (fun i => m.store[i]?)

/-- `FrozenMap::values` / `ShareMap::values`: the store in slot order. -/
def FrozenMap.values (m : FrozenMap K V) : List V :=
  m.store

/-- `FrozenMap::len`: `self.store.len()`. -/
def FrozenMap.len (m : FrozenMap K V) : Nat :=
  m.store.length

/-- `FrozenMap::contains_key`. -/
def FrozenMap.contains_key (m : FrozenMap K V) (k : K) : Bool :=
  imContains m.index_map k

/-- `FrozenMap::is_empty`: `self.store.is_empty()`. -/
def FrozenMap.is_empty (m : FrozenMap K V) : Bool :=
  m.store.isEmpty

/-- The `Default` impl of `ShareMap`/`FrozenMap`: empty index map, empty
store. -/
def FrozenMap.defaultMap : FrozenMap K V :=
  ⟨[], []⟩

/-- `ShareMap::try_from_iter`: unzip the enumerated pairs into the value
store and the `(key, index)` pairs, build the index map, and compare
cardinalities.  The same computation as `FrozenMap::from_pairs`. -/
def ShareMap.try_from_iter (pairs : List (K × V)) :
    Except DuplicateKeyError (FrozenMap K V) :=
  let values := pairs.map Prod.snd
  let index_map := imFromIter (reindexFrom 0 pairs)
  if index_map.length = values.length then
    .ok ⟨index_map, values⟩
  else
    .error .mk

/-- `ShareMap::get` (same body as `FrozenMap::get`). -/
def ShareMap.get (m : FrozenMap K V) (k : K) : Option V :=
  (imGet m.index_map k).bind (fun i => m.store[i]?)

/-- `ShareMap::values`. -/
def ShareMap.values (m : FrozenMap K V) : List V :=
  m.store

/-- The collapse-permitting `FromIterator::from_iter` of `ShareMap`.  When
the index map collapsed duplicates, the store and index map are rebuilt by
walking the collapsed index map in its iteration order: entry number `index`
keeps key `key` and takes the value at the old slot `old_index`.  (The
`Ordering::Greater` arm of the source panics; it is unreachable because the
index map never grows beyond its input, see `imFromIter_length_le`.) -/
def ShareMap.from_iter (pairs : List (K × V)) : FrozenMap K V :=
  let values := pairs.map Prod.snd
  let index_map := imFromIter (reindexFrom 0 pairs)
  if index_map.length = values.length then
    ⟨index_map, values⟩
  else
    let key_index_pairs := reindexFrom 0 index_map
    let new_values := index_map.filterMap (fun e => values[e.2]?)
    ⟨imFromIter key_index_pairs, new_values⟩

/-- Value of the last input pair carrying key `k` (the "last write wins"
specification side of duplicate collapsing). -/
def lastVal (pairs : List (K × V)) (k : K) : Option V :=
  (assocFind pairs.reverse k).map Prod.snd

/-! ### Basic lemmas about the index-map model -/

theorem assocFind_nil (k : K) : assocFind ([] : List (K × α)) k = none := rfl

theorem assocFind_cons (e : K × α) (l : List (K × α)) (k : K) :
    assocFind (e :: l) k = if e.1 = k then some e else assocFind l k := by
  by_cases h : e.1 = k <;>
    simp [assocFind, List.find?_cons, h]

theorem assocFind_append (l₁ l₂ : List (K × α)) (k : K) :
    assocFind (l₁ ++ l₂) k = (assocFind l₁ k).or (assocFind l₂ k) := by
  simp [assocFind, List.find?_append]

theorem assocFind_eq_none {l : List (K × α)} {k : K} :
    assocFind l k = none ↔ k ∉ l.map Prod.fst := by
  constructor
  · intro h hk
    rcases List.mem_map.1 hk with ⟨e, he, hfst⟩
    have := List.find?_eq_none.1 h e he
    simp [hfst] at this
  · intro h
    refine List.find?_eq_none.2 (fun e he => ?_)
    intro hcontra
    exact h (List.mem_map.2 ⟨e, he, by simpa using hcontra⟩)

theorem assocFind_key {l : List (K × α)} {k : K} {e : K × α}
    (h : assocFind l k = some e) : e.1 = k := by
  have := List.find?_some h
  simpa using this

theorem assocFind_mem {l : List (K × α)} {k : K} {e : K × α}
    (h : assocFind l k = some e) : e ∈ l :=
  List.mem_of_find?_eq_some h

/-- In a list whose keys are distinct, a present pair is what lookup finds. -/
theorem assocFind_of_nodup {l : List (K × α)} (hnd : (l.map Prod.fst).Nodup)
    {p : K × α} (hp : p ∈ l) : assocFind l p.1 = some p := by
  induction l with
  | nil => cases hp
  | cons a rest ih =>
    have hnd' : a.1 ∉ rest.map Prod.fst ∧ (rest.map Prod.fst).Nodup := by
      rw [List.map_cons, List.nodup_cons] at hnd
      exact hnd
    rcases List.mem_cons.1 hp with rfl | hrest
    · simp [assocFind_cons]
    · have hane : a.1 ≠ p.1 := by
        intro h
        exact hnd'.1 (h ▸ List.mem_map.2 ⟨p, hrest, rfl⟩)
      rw [assocFind_cons, if_neg hane]
      exact ih hnd'.2 hrest

/-- Looking a key up in a key-slot replacement pass commutes with the
replacement. -/
theorem assocFind_replace (m : List (K × Nat)) (e : K × Nat) (k : K) :
    assocFind (m.map (fun q => if q.1 = e.1 then (q.1, e.2) else q)) k =
      (assocFind m k).map (fun q => if q.1 = e.1 then (q.1, e.2) else q) := by
  rw [assocFind, List.find?_map]
  have hcomp : ((fun p : K × Nat => decide (p.1 = k)) ∘
      (fun q : K × Nat => if q.1 = e.1 then (q.1, e.2) else q)) =
      (fun q : K × Nat => decide (q.1 = k)) := by
    funext q
    by_cases hq : q.1 = e.1 <;> simp [hq]
  rw [hcomp]
  rfl

theorem keys_imInsert (m : List (K × Nat)) (e : K × Nat) :
    (imInsert m e).map Prod.fst =
      if (assocFind m e.1).isSome then m.map Prod.fst
      else m.map Prod.fst ++ [e.1] := by
  by_cases h : (assocFind m e.1).isSome
  · simp only [imInsert, if_pos h, List.map_map]
    refine List.map_congr_left (fun q _ => ?_)
    by_cases hq : q.1 = e.1 <;> simp [hq]
  · simp [imInsert, if_neg h]

theorem imGet_imInsert (m : List (K × Nat)) (e : K × Nat) (k : K) :
    imGet (imInsert m e) k = if k = e.1 then some e.2 else imGet m k := by
  unfold imInsert
  by_cases h : (assocFind m e.1).isSome
  · rw [if_pos h, imGet, assocFind_replace]
    by_cases hk : k = e.1
    · subst hk
      rcases Option.isSome_iff_exists.1 h with ⟨p, hp⟩
      have hp1 : p.1 = e.1 := assocFind_key hp
      rw [hp]
      simp [hp1]
    · rcases hfind : assocFind m k with _ | p
      · simp [imGet, hfind, hk]
      · have hp1 : p.1 = k := assocFind_key hfind
        have hne : ¬p.1 = e.1 := by rw [hp1]; exact hk
        simp [imGet, hfind, hk, hne]
  · rw [if_neg h, imGet, assocFind_append]
    by_cases hk : k = e.1
    · subst hk
      have hnone : assocFind m e.1 = none := Option.not_isSome_iff_eq_none.1 h
      simp [imGet, hnone, assocFind_cons, assocFind_nil]
    · have hne : ¬e.1 = k := fun hc => hk hc.symm
      simp [imGet, assocFind_cons, assocFind_nil, hne, hk]

theorem imInsert_of_fresh {m : List (K × Nat)} {e : K × Nat}
    (h : e.1 ∉ m.map Prod.fst) : imInsert m e = m ++ [e] := by
  have : assocFind m e.1 = none := assocFind_eq_none.2 h
  simp [imInsert, this]

theorem imFromIter_nil : imFromIter ([] : List (K × Nat)) = [] := rfl

theorem imFromIter_concat (l : List (K × Nat)) (e : K × Nat) :
    imFromIter (l ++ [e]) = imInsert (imFromIter l) e := by
  simp [imFromIter, List.foldl_append]

/-- Keys of the built index map are exactly the input keys (as a set). -/
theorem mem_keys_imFromIter (l : List (K × Nat)) :
    ∀ x : K, x ∈ (imFromIter l).map Prod.fst ↔ x ∈ l.map Prod.fst := by
  induction l using List.reverseRecOn with
  | nil => simp [imFromIter_nil]
  | append_singleton l e ih =>
    intro x
    rw [imFromIter_concat, keys_imInsert]
    by_cases h : (assocFind (imFromIter l) e.1).isSome
    · rcases Option.isSome_iff_exists.1 h with ⟨p, hp⟩
      have he1 : e.1 ∈ l.map Prod.fst := by
        refine (ih e.1).1 ?_
        rw [← assocFind_key hp]
        exact List.mem_map.2 ⟨p, assocFind_mem hp, rfl⟩
      rw [if_pos h]
      constructor
      · intro hx
        rw [List.map_append, List.mem_append]
        exact Or.inl ((ih x).1 hx)
      · intro hx
        rcases (by simpa using hx : x ∈ l.map Prod.fst ∨ x = e.1) with hx' | rfl
        · exact (ih x).2 hx'
        · exact (ih e.1).2 he1
    · rw [if_neg h, List.map_append]
      simp only [List.mem_append]
      rw [ih x]
      simp

/-- Keys of the built index map are distinct. -/
theorem nodup_keys_imFromIter (l : List (K × Nat)) :
    ((imFromIter l).map Prod.fst).Nodup := by
  induction l using List.reverseRecOn with
  | nil => simp [imFromIter_nil]
  | append_singleton l e ih =>
    rw [imFromIter_concat, keys_imInsert]
    by_cases h : (assocFind (imFromIter l) e.1).isSome
    · simpa [h] using ih
    · have : e.1 ∉ (imFromIter l).map Prod.fst := by
        intro hc
        rcases List.mem_map.1 hc with ⟨p, hp, hfst⟩
        rcases hfind : assocFind (imFromIter l) e.1 with _ | q
        · rw [assocFind_eq_none] at hfind
          exact hfind (hfst ▸ List.mem_map.2 ⟨p, hp, rfl⟩)
        · exact h (by simp [hfind])
      simp [h, List.nodup_append, ih, this]

/-- On an input with distinct keys, insertion never collapses: the built
index map is the input itself. -/
theorem imFromIter_of_nodup {l : List (K × Nat)}
    (h : (l.map Prod.fst).Nodup) : imFromIter l = l := by
  induction l using List.reverseRecOn with
  | nil => rfl
  | append_singleton l e ih =>
    rw [List.map_append] at h
    have hl : (l.map Prod.fst).Nodup := h.of_append_left
    have he : e.1 ∉ l.map Prod.fst := by
      intro hc
      exact (List.disjoint_of_nodup_append h) hc (by simp)
    rw [imFromIter_concat, ih hl]
    exact imInsert_of_fresh he

/-- Lookup in the built index map returns the slot of the **last** input
pair with the queried key. -/
theorem imGet_imFromIter (l : List (K × Nat)) (k : K) :
    imGet (imFromIter l) k = (assocFind l.reverse k).map Prod.snd := by
  induction l using List.reverseRecOn with
  | nil => simp [imFromIter_nil, imGet, assocFind_nil]
  | append_singleton l e ih =>
    rw [imFromIter_concat, imGet_imInsert, List.reverse_append]
    by_cases hk : k = e.1
    · subst hk
      simp [assocFind_cons]
    · have hne : ¬e.1 = k := fun hc => hk hc.symm
      simp [assocFind_cons, hne, hk, ih]

/-! ### Reindexing and length lemmas -/

theorem length_reindexFrom (l : List (K × α)) :
    ∀ n, (reindexFrom n l).length = l.length := by
  induction l with
  | nil => intro n; rfl
  | cons e rest ih => intro n; simp [reindexFrom, ih]

theorem keys_reindexFrom (l : List (K × α)) :
    ∀ n, (reindexFrom n l).map Prod.fst = l.map Prod.fst := by
  induction l with
  | nil => intro n; rfl
  | cons e rest ih => intro n; simp [reindexFrom, ih]

theorem reindexFrom_append (l₁ l₂ : List (K × α)) :
    ∀ n, reindexFrom n (l₁ ++ l₂) =
      reindexFrom n l₁ ++ reindexFrom (n + l₁.length) l₂ := by
  induction l₁ with
  | nil => intro n; simp [reindexFrom]
  | cons e rest ih =>
    intro n
    have h1 : reindexFrom n ((e :: rest) ++ l₂) =
        (e.1, n) :: reindexFrom (n + 1) (rest ++ l₂) := rfl
    have h2 : reindexFrom n (e :: rest) = (e.1, n) :: reindexFrom (n + 1) rest := rfl
    rw [h1, h2, ih (n + 1), List.cons_append]
    have h3 : n + 1 + rest.length = n + (e :: rest).length := by
      simp only [List.length_cons]
      omega
    rw [h3]

theorem snd_mem_reindexFrom {l : List (K × α)} {x : Nat} :
    ∀ n, x ∈ (reindexFrom n l).map Prod.snd → x < n + l.length := by
  induction l with
  | nil => intro n h; simp [reindexFrom] at h
  | cons e rest ih =>
    intro n h
    simp only [reindexFrom, List.map_cons, List.mem_cons] at h
    rcases h with rfl | h
    · simp
    · have := ih (n + 1) h
      simp only [List.length_cons]
      omega

theorem snd_mem_imInsert {m : List (K × Nat)} {a e : K × Nat}
    (h : e ∈ imInsert m a) : e.2 ∈ m.map Prod.snd ∨ e.2 = a.2 := by
  unfold imInsert at h
  by_cases hs : (assocFind m a.1).isSome
  · rw [if_pos hs] at h
    rcases List.mem_map.1 h with ⟨q, hq, rfl⟩
    by_cases hq1 : q.1 = a.1
    · right; simp [hq1]
    · left
      refine List.mem_map.2 ⟨q, hq, ?_⟩
      simp [hq1]
  · rw [if_neg hs] at h
    rcases List.mem_append.1 h with h' | h'
    · exact Or.inl (List.mem_map.2 ⟨e, h', rfl⟩)
    · right
      rw [List.mem_singleton.1 h']

theorem snd_mem_imFromIter {l : List (K × Nat)} {e : K × Nat}
    (h : e ∈ imFromIter l) : e.2 ∈ l.map Prod.snd := by
  induction l using List.reverseRecOn generalizing e with
  | nil => simp [imFromIter_nil] at h
  | append_singleton l a ih =>
    rw [imFromIter_concat] at h
    rcases snd_mem_imInsert h with h' | h'
    · rcases List.mem_map.1 h' with ⟨q, hq, hsnd⟩
      rw [List.map_append, List.mem_append]
      exact Or.inl (hsnd ▸ ih hq)
    · rw [List.map_append, List.mem_append]
      right
      simp [h']

/-- Any slot stored in the index map built over the enumerated pairs is a
valid position of the input list. -/
theorem imGet_imFromIter_lt {pairs : List (K × V)} {k : K} {i : Nat}
    (h : imGet (imFromIter (reindexFrom 0 pairs)) k = some i) :
    i < pairs.length := by
  rcases Option.map_eq_some'.1 h with ⟨e, he, hsnd⟩
  have hmem := assocFind_mem he
  have h2 : e.2 ∈ (reindexFrom 0 pairs).map Prod.snd := snd_mem_imFromIter hmem
  have h3 := snd_mem_reindexFrom 0 h2
  omega

/-- The built index map never has more entries than its input. -/
theorem imFromIter_length_le (l : List (K × Nat)) :
    (imFromIter l).length ≤ l.length := by
  have h1 : (imFromIter l).length = ((imFromIter l).map Prod.fst).length := by
    simp
  have h2 : ((imFromIter l).map Prod.fst).toFinset =
      (l.map Prod.fst).toFinset := by
    ext x
    rw [List.mem_toFinset, List.mem_toFinset]
    exact mem_keys_imFromIter l x
  calc (imFromIter l).length
      = ((imFromIter l).map Prod.fst).toFinset.card := by
        rw [List.toFinset_card_of_nodup (nodup_keys_imFromIter l), ← h1]
    _ = (l.map Prod.fst).toFinset.card := by rw [h2]
    _ ≤ (l.map Prod.fst).length := List.toFinset_card_le _
    _ = l.length := by simp

/-- The built index map has as many entries as its input exactly when the
input keys are distinct. -/
theorem imFromIter_length_eq_iff (l : List (K × Nat)) :
    (imFromIter l).length = l.length ↔ (l.map Prod.fst).Nodup := by
  constructor
  · intro h
    have h1 : (imFromIter l).length = (l.map Prod.fst).toFinset.card := by
      have hkeys : ((imFromIter l).map Prod.fst).toFinset =
          (l.map Prod.fst).toFinset := by
        ext x
        rw [List.mem_toFinset, List.mem_toFinset]
        exact mem_keys_imFromIter l x
      calc (imFromIter l).length
          = ((imFromIter l).map Prod.fst).length := by simp
        _ = ((imFromIter l).map Prod.fst).toFinset.card :=
            (List.toFinset_card_of_nodup (nodup_keys_imFromIter l)).symm
        _ = (l.map Prod.fst).toFinset.card := by rw [hkeys]
    rw [List.card_toFinset] at h1
    have hdedup : (l.map Prod.fst).dedup.length = (l.map Prod.fst).length := by
      rw [← h1, h]; simp
    have heq : (l.map Prod.fst).dedup = l.map Prod.fst :=
      (l.map Prod.fst).dedup_sublist.eq_of_length hdedup
    exact heq ▸ (l.map Prod.fst).nodup_dedup
  · intro h
    rw [imFromIter_of_nodup h]

/-! ### Lookup through the slot indirection -/

/-- Looking a key up through the enumerated index pairs and reading the
store at the found slot is looking the key up in the input pairs directly.
Stated with an arbitrary already-stored prefix so that the induction tracks
slot offsets. -/
theorem lookup_reindex (pairs : List (K × V)) :
    ∀ (pre : List V) (k : K),
      (imGet (reindexFrom pre.length pairs) k).bind
          (fun i => (pre ++ pairs.map Prod.snd)[i]?) =
        (assocFind pairs k).map Prod.snd := by
  induction pairs with
  | nil =>
    intro pre k
    simp [reindexFrom, imGet, assocFind_nil]
  | cons e rest ih =>
    intro pre k
    have hsplit : reindexFrom pre.length (e :: rest) =
        (e.1, pre.length) :: reindexFrom (pre.length + 1) rest := rfl
    rw [hsplit, imGet, assocFind_cons, assocFind_cons]
    by_cases hk : e.1 = k
    · rw [if_pos hk, if_pos hk]
      simp only [Option.map_some', Option.some_bind]
      rw [List.map_cons,
        List.getElem?_append_right (Nat.le_refl pre.length)]
      simp
    · rw [if_neg hk, if_neg hk]
      have hpre : pre.length + 1 = (pre ++ [e.2]).length := by simp
      have hstore : pre ++ (e :: rest).map Prod.snd =
          (pre ++ [e.2]) ++ rest.map Prod.snd := by simp
      rw [hpre, hstore]
      exact ih (pre ++ [e.2]) k

/-- The rebuild performed by the collapse-permitting constructor preserves
lookups: reading the rebuilt compacted store through the re-enumerated index
map is reading the old store through the collapsed index map. -/
theorem lookup_rebuild (l : List (K × Nat)) :
    ∀ (pre : List V) (vals : List V) (k : K),
      (∀ e ∈ l, e.2 < vals.length) →
      (imGet (reindexFrom pre.length l) k).bind
          (fun i => (pre ++ l.filterMap (fun e => vals[e.2]?))[i]?) =
        (assocFind l k).bind (fun e => vals[e.2]?) := by
  induction l with
  | nil =>
    intro pre vals k _
    simp [reindexFrom, imGet, assocFind_nil]
  | cons e rest ih =>
    intro pre vals k hb
    have hbe : e.2 < vals.length := hb e (List.mem_cons_self e rest)
    obtain ⟨v, hv⟩ : ∃ v, vals[e.2]? = some v :=
      ⟨_, List.getElem?_eq_getElem hbe⟩
    have hfm : (e :: rest).filterMap (fun q => vals[q.2]?) =
        v :: rest.filterMap (fun q => vals[q.2]?) := by
      rw [List.filterMap_cons, hv]
    have hsplit : reindexFrom pre.length (e :: rest) =
        (e.1, pre.length) :: reindexFrom (pre.length + 1) rest := rfl
    rw [hsplit, imGet, assocFind_cons, assocFind_cons]
    by_cases hk : e.1 = k
    · rw [if_pos hk, if_pos hk]
      simp only [Option.map_some', Option.some_bind]
      rw [hfm, List.getElem?_append_right (Nat.le_refl pre.length)]
      simp [hv]
    · rw [if_neg hk, if_neg hk]
      have hpre : pre.length + 1 = (pre ++ [v]).length := by simp
      have hstore : pre ++ (e :: rest).filterMap (fun q => vals[q.2]?) =
          (pre ++ [v]) ++ rest.filterMap (fun q => vals[q.2]?) := by
        rw [hfm]
        simp
      rw [hpre, hstore]
      exact ih (pre ++ [v]) vals k
        (fun q hq => hb q (List.mem_cons_of_mem e hq))

/-- Reading the original store through the collapsed index map yields the
value of the **last** input pair with the queried key. -/
theorem lookup_last (pairs : List (K × V)) (k : K) :
    (imGet (imFromIter (reindexFrom 0 pairs)) k).bind
        (fun i => (pairs.map Prod.snd)[i]?) =
      lastVal pairs k := by
  induction pairs using List.reverseRecOn with
  | nil => simp [reindexFrom, imFromIter_nil, imGet, assocFind_nil, lastVal]
  | append_singleton l e ih =>
    have happ : reindexFrom 0 (l ++ [e]) =
        reindexFrom 0 l ++ [(e.1, l.length)] := by
      rw [reindexFrom_append]
      simp [reindexFrom]
    rw [happ, imFromIter_concat, imGet_imInsert]
    by_cases hk : k = e.1
    · rw [if_pos hk]
      simp only [Option.some_bind, List.map_append, List.map_cons, List.map_nil]
      have hlen : l.length = (l.map Prod.snd).length := by simp
      rw [hlen, List.getElem?_concat_length]
      unfold lastVal
      rw [List.reverse_append]
      simp [assocFind_cons, hk]
    · rw [if_neg hk]
      have hlast : lastVal (l ++ [e]) k = lastVal l k := by
        unfold lastVal
        rw [List.reverse_append]
        have hne : ¬e.1 = k := fun hc => hk hc.symm
        simp [assocFind_cons, hne]
      rw [hlast, ← ih]
      rcases hget : imGet (imFromIter (reindexFrom 0 l)) k with _ | i
      · rfl
      · have hi : i < l.length := imGet_imFromIter_lt hget
        have hi' : i < (l.map Prod.snd).length := by simpa using hi
        simp only [Option.some_bind, List.map_append]
        rw [List.getElem?_append, if_pos hi']

/-! ### Characterizing the checked constructors -/

theorem try_from_iter_eq (pairs : List (K × V)) :
    ShareMap.try_from_iter pairs = FrozenMap.from_pairs pairs := rfl

/-- With distinct input keys the checked constructor succeeds with the
enumerated index map and the values in input order. -/
theorem from_pairs_ok_of_nodup {pairs : List (K × V)}
    (h : (pairs.map Prod.fst).Nodup) :
    FrozenMap.from_pairs pairs =
      .ok ⟨reindexFrom 0 pairs, pairs.map Prod.snd⟩ := by
  have hkeys : ((reindexFrom 0 pairs).map Prod.fst).Nodup := by
    rw [keys_reindexFrom]
    exact h
  have hunfold : FrozenMap.from_pairs pairs =
      if (imFromIter (reindexFrom 0 pairs)).length = (pairs.map Prod.snd).length
      then .ok ⟨imFromIter (reindexFrom 0 pairs), pairs.map Prod.snd⟩
      else .error .mk := rfl
  rw [hunfold, imFromIter_of_nodup hkeys,
    if_pos (by simp [length_reindexFrom])]

/-- With a duplicated input key the checked constructor fails. -/
theorem from_pairs_error_of_dup {pairs : List (K × V)}
    (h : ¬(pairs.map Prod.fst).Nodup) :
    FrozenMap.from_pairs pairs = .error .mk := by
  have hunfold : FrozenMap.from_pairs pairs =
      if (imFromIter (reindexFrom 0 pairs)).length = (pairs.map Prod.snd).length
      then .ok ⟨imFromIter (reindexFrom 0 pairs), pairs.map Prod.snd⟩
      else .error .mk := rfl
  have hne : (imFromIter (reindexFrom 0 pairs)).length ≠
      (pairs.map Prod.snd).length := by
    intro hc
    have hlen : (imFromIter (reindexFrom 0 pairs)).length =
        (reindexFrom 0 pairs).length := by
      rw [hc, length_reindexFrom]
      simp
    have hnd := (imFromIter_length_eq_iff _).1 hlen
    rw [keys_reindexFrom] at hnd
    exact h hnd
  rw [hunfold, if_neg hne]

/-- A successful checked construction has distinct keys and the canonical
index map and store. -/
theorem from_pairs_ok_inv {pairs : List (K × V)} {m : FrozenMap K V}
    (h : FrozenMap.from_pairs pairs = .ok m) :
    (pairs.map Prod.fst).Nodup ∧
      m = ⟨reindexFrom 0 pairs, pairs.map Prod.snd⟩ := by
  by_cases hnd : (pairs.map Prod.fst).Nodup
  · refine ⟨hnd, ?_⟩
    rw [from_pairs_ok_of_nodup hnd] at h
    exact (Except.ok.inj h).symm
  · rw [from_pairs_error_of_dup hnd] at h
    cases h

/-- Lookup in a canonically-built map is lookup in the input pairs. -/
theorem get_build (pairs : List (K × V)) (k : K) :
    FrozenMap.get ⟨reindexFrom 0 pairs, pairs.map Prod.snd⟩ k =
      (assocFind pairs k).map Prod.snd := by
  have hl := lookup_reindex pairs [] k
  simpa [FrozenMap.get] using hl

/-- C1: for every finite list of `(key, value)` pairs in which all keys are
distinct, construction via `ShareMap::try_from_iter` and
`FrozenMap::from_pairs` succeeds, `get(k)` returns the value paired with
`k` for every input key, and `get(q)` returns `none` for every key outside
the input. -/
theorem build_unique_keys_get_spec (pairs : List (K × V))
    (h : (pairs.map Prod.fst).Nodup) :
    ∃ m : FrozenMap K V,
      FrozenMap.from_pairs pairs = .ok m ∧
      ShareMap.try_from_iter pairs = .ok m ∧
      (∀ p ∈ pairs,
        FrozenMap.get m p.1 = some p.2 ∧ ShareMap.get m p.1 = some p.2) ∧
      (∀ q : K, q ∉ pairs.map Prod.fst →
        FrozenMap.get m q = none ∧ ShareMap.get m q = none) := by
  refine ⟨⟨reindexFrom 0 pairs, pairs.map Prod.snd⟩,
    from_pairs_ok_of_nodup h,
    by rw [try_from_iter_eq]; exact from_pairs_ok_of_nodup h, ?_, ?_⟩
  · intro p hp
    have hg := get_build pairs p.1
    rw [assocFind_of_nodup h hp] at hg
    exact ⟨hg, hg⟩
  · intro q hq
    have hg := get_build pairs q
    rw [assocFind_eq_none.2 hq] at hg
    exact ⟨hg, hg⟩

/-- Witness for C1 at the concrete input `[(1, 10), (2, 20)]`. -/
theorem build_unique_keys_get_spec_witness :
    (([(1, 10), (2, 20)] : List (Nat × Nat)).map Prod.fst).Nodup ∧
      ∃ m : FrozenMap Nat Nat,
        FrozenMap.from_pairs [(1, 10), (2, 20)] = .ok m ∧
        ShareMap.try_from_iter [(1, 10), (2, 20)] = .ok m ∧
        (∀ p ∈ ([(1, 10), (2, 20)] : List (Nat × Nat)),
          FrozenMap.get m p.1 = some p.2 ∧ ShareMap.get m p.1 = some p.2) ∧
        (∀ q : Nat, q ∉ ([(1, 10), (2, 20)] : List (Nat × Nat)).map Prod.fst →
          FrozenMap.get m q = none ∧ ShareMap.get m q = none) :=
  ⟨by decide, build_unique_keys_get_spec _ (by decide)⟩

/-- C7: `values()` yields the stored values in slot order `0..N`, which for
a checked construction is exactly the order the pairs were supplied. -/
theorem values_in_slot_order (pairs : List (K × V)) (m : FrozenMap K V)
    (h : FrozenMap.from_pairs pairs = .ok m) :
    FrozenMap.values m = pairs.map Prod.snd ∧
      ShareMap.values m = pairs.map Prod.snd ∧
      FrozenMap.values m = m.store := by
  obtain ⟨-, rfl⟩ := from_pairs_ok_inv h
  exact ⟨rfl, rfl, rfl⟩

/-- Witness for C7 at the concrete input `[(1, 10), (2, 20)]`. -/
theorem values_in_slot_order_witness :
    FrozenMap.from_pairs ([(1, 10), (2, 20)] : List (Nat × Nat)) =
        .ok ⟨[(1, 0), (2, 1)], [10, 20]⟩ ∧
      (FrozenMap.values (FrozenMap.mk [(1, 0), (2, 1)] [10, 20]) =
          ([(1, 10), (2, 20)] : List (Nat × Nat)).map Prod.snd ∧
        ShareMap.values (FrozenMap.mk [(1, 0), (2, 1)] [10, 20]) =
          ([(1, 10), (2, 20)] : List (Nat × Nat)).map Prod.snd ∧
        FrozenMap.values (FrozenMap.mk [(1, 0), (2, 1)] [10, 20]) =
          (FrozenMap.mk [(1, 0), (2, 1)] [10, 20]).store) :=
  ⟨by rfl, values_in_slot_order _ _ (by rfl)⟩

/-! ### The collapse-permitting constructor -/

theorem length_filterMap_total {A B : Type} (f : A → Option B) :
    ∀ l : List A, (∀ a ∈ l, (f a).isSome) →
      (l.filterMap f).length = l.length := by
  intro l
  induction l with
  | nil => intro _; rfl
  | cons a rest ih =>
    intro h
    rcases Option.isSome_iff_exists.1 (h a (List.mem_cons_self a rest)) with ⟨b, hb⟩
    rw [List.filterMap_cons, hb, List.length_cons, List.length_cons,
      ih (fun x hx => h x (List.mem_cons_of_mem a hx))]

/-- The built index map has one entry per distinct input key. -/
theorem imFromIter_length_eq_dedup (l : List (K × Nat)) :
    (imFromIter l).length = (l.map Prod.fst).dedup.length := by
  have hkeys : ((imFromIter l).map Prod.fst).toFinset =
      (l.map Prod.fst).toFinset := by
    ext x
    rw [List.mem_toFinset, List.mem_toFinset]
    exact mem_keys_imFromIter l x
  calc (imFromIter l).length
      = ((imFromIter l).map Prod.fst).length := by simp
    _ = ((imFromIter l).map Prod.fst).toFinset.card :=
        (List.toFinset_card_of_nodup (nodup_keys_imFromIter l)).symm
    _ = (l.map Prod.fst).toFinset.card := by rw [hkeys]
    _ = (l.map Prod.fst).dedup.length := List.card_toFinset _

/-- Every slot held by the collapsed index map is a valid input position. -/
theorem imFromIter_reindex_bound {pairs : List (K × V)} {e : K × Nat}
    (he : e ∈ imFromIter (reindexFrom 0 pairs)) : e.2 < pairs.length := by
  have h2 : e.2 ∈ (reindexFrom 0 pairs).map Prod.snd := snd_mem_imFromIter he
  have h3 := snd_mem_reindexFrom 0 h2
  omega

/-- C6: for an input with duplicate keys, the collapse-permitting
`FromIterator::from_iter` of `ShareMap` yields a map in which each retained
key maps to the value of the **last** input pair with that key, and whose
length equals the number of distinct input keys. -/
theorem from_iter_last_write_wins (pairs : List (K × V))
    (hdup : ¬(pairs.map Prod.fst).Nodup) :
    (∀ k : K, FrozenMap.get (ShareMap.from_iter pairs) k = lastVal pairs k) ∧
      (ShareMap.from_iter pairs).store.length =
        (pairs.map Prod.fst).dedup.length := by
  have hcond : ¬((imFromIter (reindexFrom 0 pairs)).length =
      (pairs.map Prod.snd).length) := by
    intro hc
    have hlen : (imFromIter (reindexFrom 0 pairs)).length =
        (reindexFrom 0 pairs).length := by
      rw [hc, length_reindexFrom]
      simp
    have hnd := (imFromIter_length_eq_iff _).1 hlen
    rw [keys_reindexFrom] at hnd
    exact hdup hnd
  have hunfold : ShareMap.from_iter pairs =
      if (imFromIter (reindexFrom 0 pairs)).length = (pairs.map Prod.snd).length
      then ⟨imFromIter (reindexFrom 0 pairs), pairs.map Prod.snd⟩
      else ⟨imFromIter (reindexFrom 0 (imFromIter (reindexFrom 0 pairs))),
        (imFromIter (reindexFrom 0 pairs)).filterMap
          (fun e => (pairs.map Prod.snd)[e.2]?)⟩ := rfl
  rw [hunfold, if_neg hcond]
  have hbound : ∀ e ∈ imFromIter (reindexFrom 0 pairs),
      e.2 < (pairs.map Prod.snd).length := by
    intro e he
    have := imFromIter_reindex_bound he
    simpa using this
  have hndkeys : ((reindexFrom 0 (imFromIter (reindexFrom 0 pairs))).map
      Prod.fst).Nodup := by
    rw [keys_reindexFrom]
    exact nodup_keys_imFromIter _
  constructor
  · intro k
    show (imGet (imFromIter (reindexFrom 0 (imFromIter (reindexFrom 0 pairs)))) k).bind
        (fun i => ((imFromIter (reindexFrom 0 pairs)).filterMap
          (fun e => (pairs.map Prod.snd)[e.2]?))[i]?) = lastVal pairs k
    rw [imFromIter_of_nodup hndkeys]
    have hrebuild := lookup_rebuild (imFromIter (reindexFrom 0 pairs)) []
      (pairs.map Prod.snd) k hbound
    simp only [List.length_nil, List.nil_append] at hrebuild
    rw [hrebuild]
    have hbind : (assocFind (imFromIter (reindexFrom 0 pairs)) k).bind
        (fun e => (pairs.map Prod.snd)[e.2]?) =
        (imGet (imFromIter (reindexFrom 0 pairs)) k).bind
          (fun i => (pairs.map Prod.snd)[i]?) := by
      rcases hfind : assocFind (imFromIter (reindexFrom 0 pairs)) k with _ | e
      · simp [imGet, hfind]
      · simp [imGet, hfind]
    rw [hbind, lookup_last]
  · show ((imFromIter (reindexFrom 0 pairs)).filterMap
        (fun e => (pairs.map Prod.snd)[e.2]?)).length =
      (pairs.map Prod.fst).dedup.length
    rw [length_filterMap_total _ _
      (fun e he => by rw [List.getElem?_eq_getElem (hbound e he)]; rfl)]
    rw [imFromIter_length_eq_dedup, keys_reindexFrom]

/-- Witness for C6 at the concrete input `[(1, 10), (1, 20), (2, 30)]`:
key `1` maps to `20`, the value of its last pair, and the length is `2`. -/
theorem from_iter_last_write_wins_witness :
    ¬((([(1, 10), (1, 20), (2, 30)] : List (Nat × Nat)).map Prod.fst).Nodup) ∧
      FrozenMap.get (ShareMap.from_iter
          ([(1, 10), (1, 20), (2, 30)] : List (Nat × Nat))) 1 =
        lastVal [(1, 10), (1, 20), (2, 30)] 1 ∧
      (ShareMap.from_iter ([(1, 10), (1, 20), (2, 30)] : List (Nat × Nat))).store.length =
        (([(1, 10), (1, 20), (2, 30)] : List (Nat × Nat)).map Prod.fst).dedup.length :=
  ⟨by decide,
    (from_iter_last_write_wins _ (by decide)).1 1,
    (from_iter_last_write_wins _ (by decide)).2⟩

/-- C8: every constructor establishes the invariant that the index map's
cardinality equals the store's length, so `len()` counts keys and stored
values simultaneously. -/
theorem constructors_len_invariant :
    (∀ (pairs : List (K × V)) (m : FrozenMap K V),
      FrozenMap.from_pairs pairs = .ok m →
        m.index_map.length = m.store.length) ∧
    (∀ (pairs : List (K × V)) (m : FrozenMap K V),
      ShareMap.try_from_iter pairs = .ok m →
        m.index_map.length = m.store.length) ∧
    (∀ pairs : List (K × V),
      (ShareMap.from_iter pairs).index_map.length =
        (ShareMap.from_iter pairs).store.length) ∧
    ((FrozenMap.defaultMap : FrozenMap K V).index_map.length =
      (FrozenMap.defaultMap : FrozenMap K V).store.length) ∧
    (∀ pairs : List (K × V), (pairs.map Prod.fst).Nodup →
      ∃ m : FrozenMap K V, FrozenMap.from_pairs pairs = .ok m ∧
        m.index_map.length = m.store.length) := by
  have hok : ∀ (pairs : List (K × V)) (m : FrozenMap K V),
      FrozenMap.from_pairs pairs = .ok m →
        m.index_map.length = m.store.length := by
    intro pairs m h
    obtain ⟨hnd, rfl⟩ := from_pairs_ok_inv h
    show (reindexFrom 0 pairs).length = (pairs.map Prod.snd).length
    rw [length_reindexFrom]
    simp
  refine ⟨hok, ?_, ?_, rfl, ?_⟩
  · intro pairs m h
    rw [try_from_iter_eq] at h
    exact hok pairs m h
  · intro pairs
    by_cases hcond : (imFromIter (reindexFrom 0 pairs)).length =
        (pairs.map Prod.snd).length
    · have hunfold : ShareMap.from_iter pairs =
          ⟨imFromIter (reindexFrom 0 pairs), pairs.map Prod.snd⟩ := by
        show (if (imFromIter (reindexFrom 0 pairs)).length =
            (pairs.map Prod.snd).length then _ else _) = _
        rw [if_pos hcond]
      rw [hunfold]
      exact hcond
    · have hunfold : ShareMap.from_iter pairs =
          ⟨imFromIter (reindexFrom 0 (imFromIter (reindexFrom 0 pairs))),
            (imFromIter (reindexFrom 0 pairs)).filterMap
              (fun e => (pairs.map Prod.snd)[e.2]?)⟩ := by
        show (if (imFromIter (reindexFrom 0 pairs)).length =
            (pairs.map Prod.snd).length then _ else _) = _
        rw [if_neg hcond]
      rw [hunfold]
      have hbound : ∀ e ∈ imFromIter (reindexFrom 0 pairs),
          e.2 < (pairs.map Prod.snd).length := by
        intro e he
        have := imFromIter_reindex_bound he
        simpa using this
      have hndkeys : ((reindexFrom 0 (imFromIter (reindexFrom 0 pairs))).map
          Prod.fst).Nodup := by
        rw [keys_reindexFrom]
        exact nodup_keys_imFromIter _
      show (imFromIter (reindexFrom 0 (imFromIter (reindexFrom 0 pairs)))).length = _
      rw [imFromIter_of_nodup hndkeys, length_reindexFrom,
        length_filterMap_total _ _
          (fun e he => by rw [List.getElem?_eq_getElem (hbound e he)]; rfl)]
  · intro pairs hnd
    exact ⟨⟨reindexFrom 0 pairs, pairs.map Prod.snd⟩,
      from_pairs_ok_of_nodup hnd,
      hok pairs _ (from_pairs_ok_of_nodup hnd)⟩

/-- Witness for C8 at concrete inputs (a checked build, a collapsing build,
and the `From<HashMap>`-style unique-keyed build). -/
theorem constructors_len_invariant_witness :
    FrozenMap.from_pairs ([(1, 10), (2, 20)] : List (Nat × Nat)) =
        .ok ⟨[(1, 0), (2, 1)], [10, 20]⟩ ∧
      (FrozenMap.mk [(1, 0), (2, 1)] [10, 20] : FrozenMap Nat Nat).index_map.length =
        (FrozenMap.mk [(1, 0), (2, 1)] [10, 20] : FrozenMap Nat Nat).store.length ∧
      (ShareMap.from_iter ([(1, 10), (1, 20)] : List (Nat × Nat))).index_map.length =
        (ShareMap.from_iter ([(1, 10), (1, 20)] : List (Nat × Nat))).store.length :=
  ⟨by rfl,
    constructors_len_invariant.1 [(1, 10), (2, 20)] _ (by rfl),
    constructors_len_invariant.2.2.1 [(1, 10), (1, 20)]⟩

/-! ### The ownership layer: arenas, snapshot objects, worlds -/

/-- One `Arc<[V]>` value-store allocation: the stored values plus the strong
reference count of the arc (`rc = 0` means the allocation was freed). -/
structure Arena (V : Type) where
  vals : List V
  rc : Nat
deriving DecidableEq

/-- One `Arc<FrozenMap>` allocation: the index map, the id of the arena its
store arc points into, and the strong count of the `Arc<FrozenMap>`. -/
structure SnapObj (K V : Type) where
  index_map : List (K × Nat)
  aid : Nat
  rc : Nat
deriving DecidableEq

/-- The heap: every arena and snapshot object ever allocated, by id. -/
structure World (K V : Type) where
  arenas : List (Arena V)
  snaps : List (SnapObj K V)
deriving DecidableEq

/-- `ValueRef<T>` / `Handle<T>`: a clone of the store `Arc<[T]>` (identified
by its arena id) plus the slot index of the referenced value. -/
structure ValueRef where
  aid : Nat
  index : Nat
deriving DecidableEq

def World.empty : World K V := ⟨[], []⟩

/-- Update the element at position `i` (no-op when out of range). -/
def setAt {A : Type} : List A → Nat → (A → A) → List A
  | [], _, _ => []
  | a :: l, 0, f => f a :: l
  | a :: l, n + 1, f => a :: setAt l n f

/-- Clone of an `Arc<[V]>`: one more strong reference on the arena. -/
def World.incArena (w : World K V) (aid : Nat) : World K V :=
  { w with arenas := setAt w.arenas aid (fun a => { a with rc := a.rc + 1 }) }

/-- Drop of an `Arc<[V]>`: one fewer strong reference on the arena. -/
def World.decArena (w : World K V) (aid : Nat) : World K V :=
  { w with arenas := setAt w.arenas aid (fun a => { a with rc := a.rc - 1 }) }

/-- Clone of an `Arc<FrozenMap>`: one more strong reference. -/
def World.incSnap (w : World K V) (sid : Nat) : World K V :=
  { w with snaps := setAt w.snaps sid (fun s => { s with rc := s.rc + 1 }) }

/-- Dropping one strong reference to an `Arc<FrozenMap>`: when the count
reaches zero the `FrozenMap` itself is dropped, which drops its store arc
(one strong reference on its arena). -/
def World.dropSnapRef (w : World K V) (sid : Nat) : World K V :=
  match w.snaps[sid]? with
  | none => w
  | some s =>
    let w' := { w with
      snaps := setAt w.snaps sid (fun t => { t with rc := t.rc - 1 }) }
    if s.rc = 1 then w'.decArena s.aid else w'

/-- `ValueRef::deref` / `Handle::deref`: read the arena the handle keeps
alive at the captured slot.  A freed arena (strong count zero) yields
`none`; a live handle's own reference keeps the count positive, so the code
never reads freed memory. -/
def World.deref (w : World K V) (r : ValueRef) : Option V :=
  match w.arenas[r.aid]? with
  | none => none
  | some a => if a.rc = 0 then none else a.vals[r.index]?

/-- Snapshot-level `FrozenMap::get`, reading through the heap. -/
def World.snapGet (w : World K V) (sid : Nat) (k : K) : Option V :=
  match w.snaps[sid]? with
  | none => none
  | some s =>
    match imGet s.index_map k with
    | none => none
    | some i =>
      match w.arenas[s.aid]? with
      | none => none
      | some a => if a.rc = 0 then none else a.vals[i]?

/-- Snapshot-level `FrozenMap::values` (the slot-order value iteration),
reading through the heap. -/
def World.snapValues (w : World K V) (sid : Nat) : Option (List V) :=
  match w.snaps[sid]? with
  | none => none
  | some s =>
    match w.arenas[s.aid]? with
    | none => none
    | some a => if a.rc = 0 then none else some a.vals

/-- Allocate a freshly built `FrozenMap` on the heap: one new arena holding
the store (strong count 1 — the `FrozenMap`'s own store arc) and one new
snapshot object (strong count 1 — the caller's `Arc<FrozenMap>`).  Returns
the new world and the snapshot id. -/
def World.allocFrozen (w : World K V) (m : FrozenMap K V) : World K V × Nat :=
  ({ arenas := w.arenas ++ [⟨m.store, 1⟩],
     snaps := w.snaps ++ [⟨m.index_map, w.arenas.length, 1⟩] },
   w.snaps.length)

/-- `SwapMap::from_pairs`: build the `FrozenMap` and wrap it behind the
holder's `ArcSwap` pointer. -/
def SwapMap.from_pairs (w : World K V) (pairs : List (K × V)) :
    Except DuplicateKeyError (World K V × Nat) :=
  (FrozenMap.from_pairs pairs).map (fun m => w.allocFrozen m)

/-- `SwapMap::store`: build a new snapshot from the pairs; on success
atomically replace the holder's pointer, dropping the holder's reference to
the previous snapshot; on `DuplicateKeyError` leave everything unchanged.
Returns the world, the holder's current snapshot id, and the result. -/
def SwapMap.store (w : World K V) (sid : Nat) (pairs : List (K × V)) :
    World K V × Nat × Except DuplicateKeyError Unit :=
  match FrozenMap.from_pairs pairs with
  | .error e => (w, sid, .error e)
  | .ok m =>
    let (w1, sid') := w.allocFrozen m
    (w1.dropSnapRef sid, sid', .ok ())

/-- `SwapMap::swap`: like `store`, but ownership of the previous
`Arc<FrozenMap>` transfers to the caller instead of being dropped. -/
def SwapMap.swap (w : World K V) (sid : Nat) (pairs : List (K × V)) :
    World K V × Nat × Except DuplicateKeyError Nat :=
  match FrozenMap.from_pairs pairs with
  | .error e => (w, sid, .error e)
  | .ok m =>
    let (w1, sid') := w.allocFrozen m
    (w1, sid', .ok sid)

/-- `SwapMap::snapshot`: clone the current `Arc<FrozenMap>` and hand it to
the caller. -/
def SwapMap.snapshot (w : World K V) (sid : Nat) : World K V × Nat :=
  (w.incSnap sid, sid)

/-- `SwapMap::get`: load the current snapshot and, when the key is present,
clone only the store arc (+1 on the arena; the temporary `Arc<FrozenMap>`
of the load is dropped again) into a `ValueRef`. -/
def SwapMap.get (w : World K V) (sid : Nat) (k : K) :
    World K V × Option ValueRef :=
  match w.snaps[sid]? with
  | none => (w, none)
  | some s =>
    match imGet s.index_map k with
    | none => (w, none)
    | some i => (w.incArena s.aid, some ⟨s.aid, i⟩)

/-- `SwapMap::get` followed by dereferencing the returned handle. -/
def SwapMap.getVal (w : World K V) (sid : Nat) (k : K) : Option V :=
  match SwapMap.get w sid k with
  | (w', some r) => w'.deref r
  | (_, none) => none

/-- `SwapMap::len`: `self.datastore.load().len()`. -/
def SwapMap.len (w : World K V) (sid : Nat) : Nat :=
  match w.snaps[sid]? with
  | none => 0
  | some s =>
    match w.arenas[s.aid]? with
    | none => 0
    | some a => a.vals.length

/-- `SwapMap::contains_key`: `self.datastore.load().contains_key(key)`. -/
def SwapMap.contains_key (w : World K V) (sid : Nat) (k : K) : Bool :=
  match w.snaps[sid]? with
  | none => false
  | some s => imContains s.index_map k

/-- `SwapMap::is_empty`: `self.datastore.load().is_empty()`. -/
def SwapMap.is_empty (w : World K V) (sid : Nat) : Bool :=
  SwapMap.len w sid == 0

/-- `SwapMap::into_snapshot`: `Arc::into_inner` on the holder's pointer —
the `FrozenMap` is returned by value (keeping its store arena alive)
exactly when the holder held the last `Arc<FrozenMap>` reference; otherwise
the holder's reference is dropped and `none` is returned.  Outstanding
`ValueRef`s only hold store-arc references and are not consulted. -/
def SwapMap.into_snapshot (w : World K V) (sid : Nat) :
    World K V × Option (List (K × Nat) × Nat) :=
  match w.snaps[sid]? with
  | none => (w, none)
  | some s =>
    if s.rc = 1 then
      ({ w with snaps := setAt w.snaps sid (fun t => { t with rc := 0 }) },
       some (s.index_map, s.aid))
    else
      (w.dropSnapRef sid, none)

/-- `ValueRef::ref_eq`: `Arc::ptr_eq(&this.store, &other.store) &&
this.index == other.index`. -/
def ValueRef.ref_eq (a b : ValueRef) : Bool :=
  a.aid == b.aid && a.index == b.index

/-- `ValueRef::ref_ne`: `!Arc::ptr_eq(&this.store, &other.store) ||
this.index != other.index`. -/
def ValueRef.ref_ne (a b : ValueRef) : Bool :=
  !(a.aid == b.aid) || !(a.index == b.index)

/-- The inherent `ValueRef::eq` fast path:
`ValueRef::ref_eq(this, other) || **this == **other`. -/
def ValueRef.eq [DecidableEq V] (w : World K V) (a b : ValueRef) : Bool :=
  ValueRef.ref_eq a b || decide (w.deref a = w.deref b)

/-- The inherent `ValueRef::ne`, exactly as written in the source:
`ValueRef::ref_ne(this, other) || **this != **other`. -/
def ValueRef.ne [DecidableEq V] (w : World K V) (a b : ValueRef) : Bool :=
  ValueRef.ref_ne a b || decide (w.deref a ≠ w.deref b)

/-- The `PartialEq` impl of `ValueRef`/`Handle`: `**self == **other`. -/
def ValueRef.valueEq [DecidableEq V] (w : World K V) (a b : ValueRef) : Bool :=
  decide (w.deref a = w.deref b)

/-- `Handle::ref_eq`: `std::ptr::eq(&**this, &**other)` — two live values
share an address exactly when they live in the same arena allocation at the
same slot. -/
def Handle.ref_eq (a b : ValueRef) : Bool :=
  a.aid == b.aid && a.index == b.index

/-- The inherent `Handle::ne`:
`Handle::ref_ne(this, other) && **this != **other`. -/
def Handle.ne [DecidableEq V] (w : World K V) (a b : ValueRef) : Bool :=
  !(Handle.ref_eq a b) && decide (w.deref a ≠ w.deref b)

/-! ### Claims about the holder: failure atomicity and swap semantics -/

/-- C2: a pair list containing duplicate keys makes every duplicate-checked
constructor and `SwapMap::store` / `SwapMap::swap` fail with
`DuplicateKeyError`, and a failed store or swap leaves the holder's
observable state — get, contains_key, len, is_empty, snapshot — exactly as
it was before the call. -/
theorem duplicate_keys_error_state_unchanged (pairs : List (K × V))
    (hdup : ¬(pairs.map Prod.fst).Nodup) :
    FrozenMap.from_pairs pairs = .error .mk ∧
    ShareMap.try_from_iter pairs = .error .mk ∧
    ∀ (w : World K V) (sid : Nat),
      SwapMap.store w sid pairs = (w, sid, .error .mk) ∧
      SwapMap.swap w sid pairs = (w, sid, .error .mk) ∧
      (∀ k, SwapMap.getVal (SwapMap.store w sid pairs).1
          (SwapMap.store w sid pairs).2.1 k = SwapMap.getVal w sid k) ∧
      (∀ k, SwapMap.contains_key (SwapMap.store w sid pairs).1
          (SwapMap.store w sid pairs).2.1 k = SwapMap.contains_key w sid k) ∧
      SwapMap.len (SwapMap.store w sid pairs).1
        (SwapMap.store w sid pairs).2.1 = SwapMap.len w sid ∧
      SwapMap.is_empty (SwapMap.store w sid pairs).1
        (SwapMap.store w sid pairs).2.1 = SwapMap.is_empty w sid ∧
      (∀ k, World.snapGet
          (SwapMap.snapshot (SwapMap.store w sid pairs).1
            (SwapMap.store w sid pairs).2.1).1
          (SwapMap.snapshot (SwapMap.store w sid pairs).1
            (SwapMap.store w sid pairs).2.1).2 k =
        World.snapGet (SwapMap.snapshot w sid).1 (SwapMap.snapshot w sid).2 k) := by
  have herr : FrozenMap.from_pairs pairs = .error .mk := from_pairs_error_of_dup hdup
  have hstore : ∀ (w : World K V) (sid : Nat),
      SwapMap.store w sid pairs = (w, sid, .error .mk) := by
    intro w sid
    unfold SwapMap.store
    rw [herr]
  have hswap : ∀ (w : World K V) (sid : Nat),
      SwapMap.swap w sid pairs = (w, sid, .error .mk) := by
    intro w sid
    unfold SwapMap.swap
    rw [herr]
  refine ⟨herr, by rw [try_from_iter_eq]; exact herr, fun w sid => ?_⟩
  rw [hstore w sid]
  exact ⟨rfl, hswap w sid, fun k => rfl, fun k => rfl, rfl, rfl, fun k => rfl⟩

/-- Witness for C2 at the concrete input `[(1, 10), (1, 20)]` against a
one-entry holder. -/
theorem duplicate_keys_error_state_unchanged_witness :
    ¬((([(1, 10), (1, 20)] : List (Nat × Nat)).map Prod.fst).Nodup) ∧
    FrozenMap.from_pairs ([(1, 10), (1, 20)] : List (Nat × Nat)) = .error .mk ∧
    SwapMap.store (⟨[⟨[42], 1⟩], [⟨[(7, 0)], 0, 1⟩]⟩ : World Nat Nat) 0
        [(1, 10), (1, 20)] =
      (⟨[⟨[42], 1⟩], [⟨[(7, 0)], 0, 1⟩]⟩, 0, .error .mk) ∧
    SwapMap.swap (⟨[⟨[42], 1⟩], [⟨[(7, 0)], 0, 1⟩]⟩ : World Nat Nat) 0
        [(1, 10), (1, 20)] =
      (⟨[⟨[42], 1⟩], [⟨[(7, 0)], 0, 1⟩]⟩, 0, .error .mk) := by
  have h := duplicate_keys_error_state_unchanged (K := Nat) (V := Nat)
    [(1, 10), (1, 20)] (by decide)
  exact ⟨by decide, h.1, (h.2.2 _ 0).1, (h.2.2 _ 0).2.1⟩

/-- C3: a successful `swap(pairsB)` on a holder whose contents are `A`
returns the previous snapshot, which independently observes exactly `A`
(get and slot-order value iteration), while the holder's subsequent
get / snapshot / len calls observe exactly the new contents `B`. -/
theorem swap_returns_old_observes_new (pairsA pairsB : List (K × V))
    (A B : FrozenMap K V)
    (hA : FrozenMap.from_pairs pairsA = .ok A)
    (hB : FrozenMap.from_pairs pairsB = .ok B) :
    SwapMap.from_pairs (World.empty : World K V) pairsA =
      .ok ((World.empty.allocFrozen A).1, 0) ∧
    SwapMap.swap ((World.empty : World K V).allocFrozen A).1 0 pairsB =
      (⟨[⟨A.store, 1⟩, ⟨B.store, 1⟩],
        [⟨A.index_map, 0, 1⟩, ⟨B.index_map, 1, 1⟩]⟩, 1, .ok 0) ∧
    (∀ k, World.snapGet (⟨[⟨A.store, 1⟩, ⟨B.store, 1⟩],
        [⟨A.index_map, 0, 1⟩, ⟨B.index_map, 1, 1⟩]⟩ : World K V) 0 k =
      FrozenMap.get A k) ∧
    World.snapValues (⟨[⟨A.store, 1⟩, ⟨B.store, 1⟩],
        [⟨A.index_map, 0, 1⟩, ⟨B.index_map, 1, 1⟩]⟩ : World K V) 0 =
      some (FrozenMap.values A) ∧
    (∀ k, SwapMap.getVal (⟨[⟨A.store, 1⟩, ⟨B.store, 1⟩],
        [⟨A.index_map, 0, 1⟩, ⟨B.index_map, 1, 1⟩]⟩ : World K V) 1 k =
      FrozenMap.get B k) ∧
    (∀ k, World.snapGet (⟨[⟨A.store, 1⟩, ⟨B.store, 1⟩],
        [⟨A.index_map, 0, 1⟩, ⟨B.index_map, 1, 1⟩]⟩ : World K V) 1 k =
      FrozenMap.get B k) ∧
    SwapMap.len (⟨[⟨A.store, 1⟩, ⟨B.store, 1⟩],
        [⟨A.index_map, 0, 1⟩, ⟨B.index_map, 1, 1⟩]⟩ : World K V) 1 =
      FrozenMap.len B ∧
    (SwapMap.snapshot (⟨[⟨A.store, 1⟩, ⟨B.store, 1⟩],
        [⟨A.index_map, 0, 1⟩, ⟨B.index_map, 1, 1⟩]⟩ : World K V) 1).2 = 1 := by
  refine ⟨?_, ?_, ?_, ?_, ?_, ?_, ?_, rfl⟩
  · simp [SwapMap.from_pairs, hA, World.allocFrozen, World.empty, Except.map]
  · simp [SwapMap.swap, hB, World.allocFrozen, World.empty]
  · intro k
    unfold World.snapGet FrozenMap.get
    rcases h : imGet A.index_map k with _ | i <;> simp [h]
  · simp [World.snapValues, FrozenMap.values]
  · intro k
    unfold SwapMap.getVal SwapMap.get FrozenMap.get
    rcases h : imGet B.index_map k with _ | i <;>
      simp [h, World.incArena, World.deref, setAt]
  · intro k
    unfold World.snapGet FrozenMap.get
    rcases h : imGet B.index_map k with _ | i <;> simp [h]
  · simp [SwapMap.len, FrozenMap.len]

/-- Witness for C3 at the concrete inputs `[(1, 42), (2, 100)]` and
`[(1, 21), (3, 7)]`, instantiating the quantified keys at `1`. -/
theorem swap_returns_old_observes_new_witness :
    SwapMap.swap ((World.empty : World Nat Nat).allocFrozen
        ⟨[(1, 0), (2, 1)], [42, 100]⟩).1 0 [(1, 21), (3, 7)] =
      (⟨[⟨[42, 100], 1⟩, ⟨[21, 7], 1⟩],
        [⟨[(1, 0), (2, 1)], 0, 1⟩, ⟨[(1, 0), (3, 1)], 1, 1⟩]⟩, 1, .ok 0) ∧
    World.snapGet (⟨[⟨[42, 100], 1⟩, ⟨[21, 7], 1⟩],
        [⟨[(1, 0), (2, 1)], 0, 1⟩, ⟨[(1, 0), (3, 1)], 1, 1⟩]⟩ : World Nat Nat) 0 1 =
      FrozenMap.get ⟨[(1, 0), (2, 1)], [42, 100]⟩ 1 ∧
    SwapMap.getVal (⟨[⟨[42, 100], 1⟩, ⟨[21, 7], 1⟩],
        [⟨[(1, 0), (2, 1)], 0, 1⟩, ⟨[(1, 0), (3, 1)], 1, 1⟩]⟩ : World Nat Nat) 1 1 =
      FrozenMap.get ⟨[(1, 0), (3, 1)], [21, 7]⟩ 1 ∧
    SwapMap.len (⟨[⟨[42, 100], 1⟩, ⟨[21, 7], 1⟩],
        [⟨[(1, 0), (2, 1)], 0, 1⟩, ⟨[(1, 0), (3, 1)], 1, 1⟩]⟩ : World Nat Nat) 1 =
      FrozenMap.len ⟨[(1, 0), (3, 1)], [21, 7]⟩ := by
  have h := swap_returns_old_observes_new (K := Nat) (V := Nat)
    [(1, 42), (2, 100)] [(1, 21), (3, 7)]
    ⟨[(1, 0), (2, 1)], [42, 100]⟩ ⟨[(1, 0), (3, 1)], [21, 7]⟩ (by rfl) (by rfl)
  exact ⟨h.2.1, h.2.2.1 1, h.2.2.2.2.1 1, h.2.2.2.2.2.2.1⟩

/-! ### Claims about handle stability and ownership recovery -/

/-- C4: a `ValueRef` obtained before a store or swap still dereferences to
its original value after the store/swap completes, and after the
originating holder — and, on the swap path, the returned old snapshot — are
dropped; the store/swap and the drops never change what the handle reads,
because the handle's own store-arc reference keeps its arena alive and
arenas are never mutated. -/
theorem valueref_stable_after_swap_and_drop (pairsA pairsB : List (K × V))
    (A B : FrozenMap K V) (k : K) (i : Nat) (v : V)
    (hA : FrozenMap.from_pairs pairsA = .ok A)
    (hB : FrozenMap.from_pairs pairsB = .ok B)
    (hi : imGet A.index_map k = some i)
    (hvi : A.store[i]? = some v) :
    SwapMap.get ((World.empty : World K V).allocFrozen A).1 0 k =
      (⟨[⟨A.store, 2⟩], [⟨A.index_map, 0, 1⟩]⟩, some ⟨0, i⟩) ∧
    World.deref (⟨[⟨A.store, 2⟩], [⟨A.index_map, 0, 1⟩]⟩ : World K V)
      ⟨0, i⟩ = some v ∧
    SwapMap.store (⟨[⟨A.store, 2⟩], [⟨A.index_map, 0, 1⟩]⟩ : World K V)
        0 pairsB =
      (⟨[⟨A.store, 1⟩, ⟨B.store, 1⟩],
        [⟨A.index_map, 0, 0⟩, ⟨B.index_map, 1, 1⟩]⟩, 1, .ok ()) ∧
    World.deref (⟨[⟨A.store, 1⟩, ⟨B.store, 1⟩],
        [⟨A.index_map, 0, 0⟩, ⟨B.index_map, 1, 1⟩]⟩ : World K V)
      ⟨0, i⟩ = some v ∧
    World.deref (World.dropSnapRef (⟨[⟨A.store, 1⟩, ⟨B.store, 1⟩],
        [⟨A.index_map, 0, 0⟩, ⟨B.index_map, 1, 1⟩]⟩ : World K V) 1)
      ⟨0, i⟩ = some v ∧
    SwapMap.swap (⟨[⟨A.store, 2⟩], [⟨A.index_map, 0, 1⟩]⟩ : World K V)
        0 pairsB =
      (⟨[⟨A.store, 2⟩, ⟨B.store, 1⟩],
        [⟨A.index_map, 0, 1⟩, ⟨B.index_map, 1, 1⟩]⟩, 1, .ok 0) ∧
    World.deref (World.dropSnapRef (World.dropSnapRef
        (⟨[⟨A.store, 2⟩, ⟨B.store, 1⟩],
          [⟨A.index_map, 0, 1⟩, ⟨B.index_map, 1, 1⟩]⟩ : World K V) 0) 1)
      ⟨0, i⟩ = some v := by
  refine ⟨?_, ?_, ?_, ?_, ?_, ?_, ?_⟩
  · simp [SwapMap.get, World.empty, World.allocFrozen, hi,
      World.incArena, setAt]
  · simp [World.deref, hvi]
  · simp [SwapMap.store, hB, World.allocFrozen, World.dropSnapRef,
      World.decArena, setAt]
  · simp [World.deref, hvi]
  · simp [World.dropSnapRef, World.decArena, setAt, World.deref, hvi]
  · simp [SwapMap.swap, hB, World.allocFrozen]
  · simp [World.dropSnapRef, World.decArena, setAt, World.deref, hvi]

/-- Witness for C4 at the concrete inputs `[(1, 42)]` (handle on key `1`)
and replacement `[(1, 21)]`. -/
theorem valueref_stable_after_swap_and_drop_witness :
    SwapMap.get ((World.empty : World Nat Nat).allocFrozen
        ⟨[(1, 0)], [42]⟩).1 0 1 =
      (⟨[⟨[42], 2⟩], [⟨[(1, 0)], 0, 1⟩]⟩, some ⟨0, 0⟩) ∧
    World.deref (⟨[⟨[42], 2⟩], [⟨[(1, 0)], 0, 1⟩]⟩ : World Nat Nat)
      ⟨0, 0⟩ = some 42 ∧
    SwapMap.store (⟨[⟨[42], 2⟩], [⟨[(1, 0)], 0, 1⟩]⟩ : World Nat Nat)
        0 [(1, 21)] =
      (⟨[⟨[42], 1⟩, ⟨[21], 1⟩],
        [⟨[(1, 0)], 0, 0⟩, ⟨[(1, 0)], 1, 1⟩]⟩, 1, .ok ()) ∧
    World.deref (⟨[⟨[42], 1⟩, ⟨[21], 1⟩],
        [⟨[(1, 0)], 0, 0⟩, ⟨[(1, 0)], 1, 1⟩]⟩ : World Nat Nat)
      ⟨0, 0⟩ = some 42 ∧
    World.deref (World.dropSnapRef (⟨[⟨[42], 1⟩, ⟨[21], 1⟩],
        [⟨[(1, 0)], 0, 0⟩, ⟨[(1, 0)], 1, 1⟩]⟩ : World Nat Nat) 1)
      ⟨0, 0⟩ = some 42 ∧
    SwapMap.swap (⟨[⟨[42], 2⟩], [⟨[(1, 0)], 0, 1⟩]⟩ : World Nat Nat)
        0 [(1, 21)] =
      (⟨[⟨[42], 2⟩, ⟨[21], 1⟩],
        [⟨[(1, 0)], 0, 1⟩, ⟨[(1, 0)], 1, 1⟩]⟩, 1, .ok 0) ∧
    World.deref (World.dropSnapRef (World.dropSnapRef
        (⟨[⟨[42], 2⟩, ⟨[21], 1⟩],
          [⟨[(1, 0)], 0, 1⟩, ⟨[(1, 0)], 1, 1⟩]⟩ : World Nat Nat) 0) 1)
      ⟨0, 0⟩ = some 42 :=
  valueref_stable_after_swap_and_drop [(1, 42)] [(1, 21)]
    ⟨[(1, 0)], [42]⟩ ⟨[(1, 0)], [21]⟩ 1 0 42
    (by rfl) (by rfl) (by decide) (by decide)

/-- C5 counterexample: a holder freshly built from `[(1, 42)]` hands out a
live `ValueRef` that shares the map's contents (it reads `42` out of the
snapshot's own arena), yet `into_snapshot` still returns the map rather
than `none` — refuting "returns None whenever another Snapshot **or
handle** shares the same contents".  This matches the repository's own test
`test_swap_map_get_value_ref_does_not_share_ownership`. -/
theorem into_snapshot_some_despite_handle :
    SwapMap.from_pairs (World.empty : World Nat Nat) [(1, 42)] =
      .ok (⟨[⟨[42], 1⟩], [⟨[(1, 0)], 0, 1⟩]⟩, 0) ∧
    SwapMap.get (⟨[⟨[42], 1⟩], [⟨[(1, 0)], 0, 1⟩]⟩ : World Nat Nat) 0 1 =
      (⟨[⟨[42], 2⟩], [⟨[(1, 0)], 0, 1⟩]⟩, some ⟨0, 0⟩) ∧
    World.deref (⟨[⟨[42], 2⟩], [⟨[(1, 0)], 0, 1⟩]⟩ : World Nat Nat) ⟨0, 0⟩ =
      some 42 ∧
    (SwapMap.into_snapshot
        (⟨[⟨[42], 2⟩], [⟨[(1, 0)], 0, 1⟩]⟩ : World Nat Nat) 0).2 =
      some ([(1, 0)], 0) ∧
    (SwapMap.into_snapshot
        (⟨[⟨[42], 2⟩], [⟨[(1, 0)], 0, 1⟩]⟩ : World Nat Nat) 0).2 ≠ none :=
  ⟨by rfl, by decide, by decide, by decide, by decide⟩

/-- C5 (amended): `into_snapshot` returns the `FrozenMap` exactly when the
holder's `Arc<FrozenMap>` is the sole reference: a freshly built holder
recovers it, a holder whose `snapshot()` is still alive gets `none`, and an
outstanding `ValueRef` (which clones only the store arc) does not prevent
recovery. -/
theorem into_snapshot_sole_ownership (pairs : List (K × V))
    (m : FrozenMap K V)
    (hm : FrozenMap.from_pairs pairs = .ok m) :
    (SwapMap.into_snapshot ((World.empty : World K V).allocFrozen m).1 0).2 =
      some (m.index_map, 0) ∧
    (SwapMap.into_snapshot
        (SwapMap.snapshot ((World.empty : World K V).allocFrozen m).1 0).1
        0).2 = none ∧
    (∀ k, (SwapMap.into_snapshot
        (SwapMap.get ((World.empty : World K V).allocFrozen m).1 0 k).1
        0).2 = some (m.index_map, 0)) := by
  refine ⟨?_, ?_, ?_⟩
  · simp [SwapMap.into_snapshot, World.empty, World.allocFrozen, setAt]
  · simp [SwapMap.into_snapshot, SwapMap.snapshot, World.incSnap,
      World.empty, World.allocFrozen, setAt, World.dropSnapRef]
  · intro k
    unfold SwapMap.get
    rcases h : imGet m.index_map k with _ | i <;>
      simp [h, SwapMap.into_snapshot, World.empty, World.allocFrozen,
        World.incArena, setAt]

/-- Witness for C5 (amended) at the concrete input `[(1, 42)]`,
instantiating the quantified key at `1`. -/
theorem into_snapshot_sole_ownership_witness :
    (SwapMap.into_snapshot ((World.empty : World Nat Nat).allocFrozen
        ⟨[(1, 0)], [42]⟩).1 0).2 = some ([(1, 0)], 0) ∧
    (SwapMap.into_snapshot
        (SwapMap.snapshot ((World.empty : World Nat Nat).allocFrozen
          ⟨[(1, 0)], [42]⟩).1 0).1 0).2 = none ∧
    (SwapMap.into_snapshot
        (SwapMap.get ((World.empty : World Nat Nat).allocFrozen
          ⟨[(1, 0)], [42]⟩).1 0 1).1 0).2 = some ([(1, 0)], 0) := by
  have h := into_snapshot_sole_ownership (K := Nat) (V := Nat)
    [(1, 42)] ⟨[(1, 0)], [42]⟩ (by rfl)
  exact ⟨h.1, h.2.1, h.2.2 1⟩

/-! ### Claims about handle equality -/

/-- C9: two handles for the same key from two independently constructed
maps with equal content compare equal under value equality (`PartialEq`
dereferences both sides) but unequal under reference equality
(`ValueRef::ref_eq` / `Handle::ref_eq`), while two handles for the same key
from the same map are reference-equal. -/
theorem handle_value_eq_ref_eq_spec [DecidableEq V]
    (pairs1 pairs2 : List (K × V)) (m1 m2 : FrozenMap K V) (k : K)
    (i1 i2 : Nat) (v : V)
    (h1 : FrozenMap.from_pairs pairs1 = .ok m1)
    (h2 : FrozenMap.from_pairs pairs2 = .ok m2)
    (hi1 : imGet m1.index_map k = some i1)
    (hv1 : m1.store[i1]? = some v)
    (hi2 : imGet m2.index_map k = some i2)
    (hv2 : m2.store[i2]? = some v) :
    SwapMap.get ((((World.empty : World K V).allocFrozen m1).1).allocFrozen
        m2).1 0 k =
      (⟨[⟨m1.store, 2⟩, ⟨m2.store, 1⟩],
        [⟨m1.index_map, 0, 1⟩, ⟨m2.index_map, 1, 1⟩]⟩, some ⟨0, i1⟩) ∧
    SwapMap.get (⟨[⟨m1.store, 2⟩, ⟨m2.store, 1⟩],
        [⟨m1.index_map, 0, 1⟩, ⟨m2.index_map, 1, 1⟩]⟩ : World K V) 1 k =
      (⟨[⟨m1.store, 2⟩, ⟨m2.store, 2⟩],
        [⟨m1.index_map, 0, 1⟩, ⟨m2.index_map, 1, 1⟩]⟩, some ⟨1, i2⟩) ∧
    (SwapMap.get (⟨[⟨m1.store, 2⟩, ⟨m2.store, 2⟩],
        [⟨m1.index_map, 0, 1⟩, ⟨m2.index_map, 1, 1⟩]⟩ : World K V) 0 k).2 =
      some ⟨0, i1⟩ ∧
    World.deref (⟨[⟨m1.store, 2⟩, ⟨m2.store, 2⟩],
        [⟨m1.index_map, 0, 1⟩, ⟨m2.index_map, 1, 1⟩]⟩ : World K V)
      ⟨0, i1⟩ = some v ∧
    World.deref (⟨[⟨m1.store, 2⟩, ⟨m2.store, 2⟩],
        [⟨m1.index_map, 0, 1⟩, ⟨m2.index_map, 1, 1⟩]⟩ : World K V)
      ⟨1, i2⟩ = some v ∧
    ValueRef.valueEq (⟨[⟨m1.store, 2⟩, ⟨m2.store, 2⟩],
        [⟨m1.index_map, 0, 1⟩, ⟨m2.index_map, 1, 1⟩]⟩ : World K V)
      ⟨0, i1⟩ ⟨1, i2⟩ = true ∧
    ValueRef.ref_eq ⟨0, i1⟩ ⟨1, i2⟩ = false ∧
    Handle.ref_eq ⟨0, i1⟩ ⟨1, i2⟩ = false ∧
    ValueRef.ref_eq ⟨0, i1⟩ ⟨0, i1⟩ = true ∧
    Handle.ref_eq ⟨0, i1⟩ ⟨0, i1⟩ = true := by
  refine ⟨?_, ?_, ?_, ?_, ?_, ?_, ?_, ?_, ?_, ?_⟩
  · simp [SwapMap.get, World.empty, World.allocFrozen, hi1,
      World.incArena, setAt]
  · simp [SwapMap.get, hi2, World.incArena, setAt]
  · simp [SwapMap.get, hi1, World.incArena, setAt]
  · simp [World.deref, hv1]
  · simp [World.deref, hv2]
  · simp [ValueRef.valueEq, World.deref, hv1, hv2]
  · simp [ValueRef.ref_eq]
  · simp [Handle.ref_eq]
  · simp [ValueRef.ref_eq]
  · simp [Handle.ref_eq]

/-- Witness for C9 with the two maps both built from `[(5, 42)]`. -/
theorem handle_value_eq_ref_eq_spec_witness :
    SwapMap.get ((((World.empty : World Nat Nat).allocFrozen
        ⟨[(5, 0)], [42]⟩).1).allocFrozen ⟨[(5, 0)], [42]⟩).1 0 5 =
      (⟨[⟨[42], 2⟩, ⟨[42], 1⟩],
        [⟨[(5, 0)], 0, 1⟩, ⟨[(5, 0)], 1, 1⟩]⟩, some ⟨0, 0⟩) ∧
    ValueRef.valueEq (⟨[⟨[42], 2⟩, ⟨[42], 2⟩],
        [⟨[(5, 0)], 0, 1⟩, ⟨[(5, 0)], 1, 1⟩]⟩ : World Nat Nat)
      ⟨0, 0⟩ ⟨1, 0⟩ = true ∧
    ValueRef.ref_eq ⟨0, 0⟩ ⟨1, 0⟩ = false ∧
    Handle.ref_eq ⟨0, 0⟩ ⟨1, 0⟩ = false ∧
    ValueRef.ref_eq ⟨0, 0⟩ ⟨0, 0⟩ = true := by
  have h := handle_value_eq_ref_eq_spec (K := Nat) (V := Nat)
    [(5, 42)] [(5, 42)] ⟨[(5, 0)], [42]⟩ ⟨[(5, 0)], [42]⟩ 5 0 0 42
    (by rfl) (by rfl) (by decide) (by decide) (by decide) (by decide)
  exact ⟨h.1, h.2.2.2.2.2.1, h.2.2.2.2.2.2.1, h.2.2.2.2.2.2.2.1,
    h.2.2.2.2.2.2.2.2.1⟩

/-- C10: at the failing input — two `ValueRef`s from two independently
built maps, both dereferencing to `42` — the inherent `ValueRef::eq`
returns `true` and the inherent `ValueRef::ne` **also** returns `true`
(its `ref_ne(..) || deref-ne` short-circuits on the different stores), so
`ne` is not the negation of `eq`; the sibling `Handle::ne`, written with
`&&`, returns `false` as the claim and the method's own documentation
require. -/
theorem valueRef_ne_not_negation_of_eq :
    SwapMap.from_pairs (World.empty : World Nat Nat) [(1, 42)] =
      .ok (⟨[⟨[42], 1⟩], [⟨[(1, 0)], 0, 1⟩]⟩, 0) ∧
    SwapMap.from_pairs (⟨[⟨[42], 1⟩], [⟨[(1, 0)], 0, 1⟩]⟩ : World Nat Nat)
        [(1, 42)] =
      .ok (⟨[⟨[42], 1⟩, ⟨[42], 1⟩],
        [⟨[(1, 0)], 0, 1⟩, ⟨[(1, 0)], 1, 1⟩]⟩, 1) ∧
    SwapMap.get (⟨[⟨[42], 1⟩, ⟨[42], 1⟩],
        [⟨[(1, 0)], 0, 1⟩, ⟨[(1, 0)], 1, 1⟩]⟩ : World Nat Nat) 0 1 =
      (⟨[⟨[42], 2⟩, ⟨[42], 1⟩],
        [⟨[(1, 0)], 0, 1⟩, ⟨[(1, 0)], 1, 1⟩]⟩, some ⟨0, 0⟩) ∧
    SwapMap.get (⟨[⟨[42], 2⟩, ⟨[42], 1⟩],
        [⟨[(1, 0)], 0, 1⟩, ⟨[(1, 0)], 1, 1⟩]⟩ : World Nat Nat) 1 1 =
      (⟨[⟨[42], 2⟩, ⟨[42], 2⟩],
        [⟨[(1, 0)], 0, 1⟩, ⟨[(1, 0)], 1, 1⟩]⟩, some ⟨1, 0⟩) ∧
    World.deref (⟨[⟨[42], 2⟩, ⟨[42], 2⟩],
        [⟨[(1, 0)], 0, 1⟩, ⟨[(1, 0)], 1, 1⟩]⟩ : World Nat Nat) ⟨0, 0⟩ =
      some 42 ∧
    World.deref (⟨[⟨[42], 2⟩, ⟨[42], 2⟩],
        [⟨[(1, 0)], 0, 1⟩, ⟨[(1, 0)], 1, 1⟩]⟩ : World Nat Nat) ⟨1, 0⟩ =
      some 42 ∧
    ValueRef.eq (⟨[⟨[42], 2⟩, ⟨[42], 2⟩],
        [⟨[(1, 0)], 0, 1⟩, ⟨[(1, 0)], 1, 1⟩]⟩ : World Nat Nat)
      ⟨0, 0⟩ ⟨1, 0⟩ = true ∧
    ValueRef.ne (⟨[⟨[42], 2⟩, ⟨[42], 2⟩],
        [⟨[(1, 0)], 0, 1⟩, ⟨[(1, 0)], 1, 1⟩]⟩ : World Nat Nat)
      ⟨0, 0⟩ ⟨1, 0⟩ = true ∧
    ValueRef.ne (⟨[⟨[42], 2⟩, ⟨[42], 2⟩],
        [⟨[(1, 0)], 0, 1⟩, ⟨[(1, 0)], 1, 1⟩]⟩ : World Nat Nat)
      ⟨0, 0⟩ ⟨1, 0⟩ ≠
      !(ValueRef.eq (⟨[⟨[42], 2⟩, ⟨[42], 2⟩],
          [⟨[(1, 0)], 0, 1⟩, ⟨[(1, 0)], 1, 1⟩]⟩ : World Nat Nat)
        ⟨0, 0⟩ ⟨1, 0⟩) ∧
    Handle.ne (⟨[⟨[42], 2⟩, ⟨[42], 2⟩],
        [⟨[(1, 0)], 0, 1⟩, ⟨[(1, 0)], 1, 1⟩]⟩ : World Nat Nat)
      ⟨0, 0⟩ ⟨1, 0⟩ = false :=
  ⟨by rfl, by rfl, by decide, by decide, by decide, by decide, by decide,
    by decide, by decide, by decide⟩

end ShareMapModel
